import Mathlib

/-!
Shallow embedding of the minijam87 simulation core (src/daytime.rs,
src/field.rs, src/ui.rs, src/workers.rs) and proofs about it.

Machine integers: the game's `u32`/`u8` counters are modelled as `ℕ`
(the only subtraction in the source is a `checked_sub`, modelled with an
explicit comparison) and the signed money delta as `ℤ`.  The one `f32`
computation (`money_for_path`) involves only small dyadic rationals on
which IEEE arithmetic is exact, so it is modelled over `ℚ`.
-/

namespace Minijam

/-- Tile state, src/field.rs `State`. -/
inductive State where
  | Inactive
  | Active
  | BreakShop
  | Obstacle
deriving DecidableEq

/-- src/field.rs `State::is_obstacle`. -/
def State.is_obstacle : State → Bool
  | .Obstacle => true
  | _ => false

/-- src/field.rs `State::is_passable`. -/
def State.is_passable (s : State) : Bool := !s.is_obstacle

/-- src/field.rs `State::is_coffee`. -/
def State.is_coffee : State → Bool
  | .BreakShop => true
  | _ => false

/-- src/field.rs `State::is_upgradeable`. -/
def State.is_upgradeable : State → Bool
  | .Inactive => true
  | _ => false

/-- hex2d axial coordinate (x, y), with implicit z = -x-y. -/
abbrev Coord := ℤ × ℤ

/-- The six neighbours of a hex coordinate (hex2d `Coordinate::neighbors`,
direction ring YZ, XZ, XY, ZY, ZX, YX). -/
def hexNeighbors (c : Coord) : List Coord :=
  [(c.1, c.2 + 1), (c.1 + 1, c.2), (c.1 + 1, c.2 - 1),
   (c.1, c.2 - 1), (c.1 - 1, c.2), (c.1 - 1, c.2 + 1)]

/-- hex2d `Coordinate::distance` from the origin:
(|x| + |y| + |z|) / 2 with z = -x-y (the division is exact). -/
def hexDist (c : Coord) : ℕ :=
  (c.1.natAbs + c.2.natAbs + (c.1 + c.2).natAbs) / 2

/-- The tile map, src/field.rs `Map.tiles` (a HashMap modelled as an
association list: lookup takes the first binding of a key). -/
abbrev TileMap := List (Coord × State)

/-- `map.tiles.get(&c)`. -/
def tiles_get (m : TileMap) (c : Coord) : Option State :=
  (m.find? (fun p => decide (p.1 = c))).map (·.2)

/-- `map.tiles.insert(c, s)`: the new binding shadows any old one. -/
def tiles_insert (m : TileMap) (c : Coord) (s : State) : TileMap :=
  (c, s) :: m

/-- src/field.rs `NEIGHBOURS_WEIGHTS`: three weight tables indexed by the
count of already-materialized Obstacle neighbours. -/
def NEIGHBOURS_WEIGHTS : List (List (State × ℕ)) :=
  [[(.Inactive, 45), (.Active, 35), (.Obstacle, 20)],
   [(.Inactive, 50), (.Active, 10), (.Obstacle, 40)],
   [(.Inactive, 25), (.Active, 0), (.Obstacle, 75)]]

/-- src/field.rs `generate_next_ring`: the Obstacle-neighbour count used to
index `NEIGHBOURS_WEIGHTS`
(`c.neighbors().iter().filter_map(get).filter(is_obstacle).count()`). -/
def obstacleCount (m : TileMap) (c : Coord) : ℕ :=
  (((hexNeighbors c).filterMap (tiles_get m)).filter State.is_obstacle).length

/-- src/workers.rs `MAX_WAITING_TICKS`. -/
def MAX_WAITING_TICKS : ℕ := 50

/-- src/workers.rs `FEE_FOR_OVERWAIT`. -/
def FEE_FOR_OVERWAIT : ℤ := -5

/-- src/field.rs `REWARD_FOR_COFFEE`. -/
def REWARD_FOR_COFFEE : ℤ := 2

/-- src/field.rs `WAIT_TICKS_AFTER_SERVING`. -/
def WAIT_TICKS_AFTER_SERVING : ℕ := 6

/-- src/field.rs `START_RING_TIMER_SECS` (seconds). -/
def START_RING_TIMER_SECS : ℚ := 10

/-- src/field.rs `NEXT_RING_TIMER_SECS` (seconds). -/
def NEXT_RING_TIMER_SECS : ℚ := 60

/-- src/workers.rs `money_for_path`:
`let y = (path_len as f32) * -0.5 + 2.5; y.ceil().max(0.) as u8`.
All intermediate f32 values here are small dyadic rationals, on which the
f32 arithmetic is exact, so `ℚ` models it faithfully; the saturating
`as u8` cast is the identity on the reachable range 0..=3. -/
def money_for_path (path_len : ℕ) : ℕ :=
  (max ⌈(path_len : ℚ) * (-1/2) + 5/2⌉ 0).toNat

/-- src/ui.rs `change_money`, processing one `ChangeMoneyEvent(delta)`:
a negative delta uses `checked_sub`; an underflow is the game-over exit,
modelled as `none` (the balance is not modified). -/
def change_money (money : ℕ) (delta : ℤ) : Option ℕ :=
  if delta < 0 then
    if delta.natAbs ≤ money then some (money - delta.natAbs) else none
  else
    some (money + delta.toNat)

/-- src/daytime.rs `MINUTES_IN_TICK`. -/
def MINUTES_IN_TICK : ℕ := 1

/-- src/daytime.rs `TICKS_IN_RUN`. -/
def TICKS_IN_RUN : ℕ := 1

/-- src/daytime.rs `MAX_TICKS = MINUTES_IN_TICK * 60 * 24`. -/
def MAX_TICKS : ℕ := MINUTES_IN_TICK * 60 * 24

/-- src/daytime.rs `Daytime(day, ticks)`; `Default` is `(1, 0)`. -/
structure Daytime where
  day : ℕ
  ticks : ℕ
deriving DecidableEq

/-- src/daytime.rs `Daytime::get_minutes`. -/
def Daytime.get_minutes (d : Daytime) : ℕ := d.ticks % 60

/-- src/daytime.rs `Daytime::get_hours`. -/
def Daytime.get_hours (d : Daytime) : ℕ := d.ticks / 60

/-- src/daytime.rs `Daytime::add`. -/
def Daytime.add (d : Daytime) (ticks : ℕ) : Daytime :=
  let t := d.ticks + ticks
  if t ≥ MAX_TICKS then ⟨d.day + t / MAX_TICKS, t - MAX_TICKS⟩
  else ⟨d.day, t⟩

/-- src/daytime.rs `update_daytime`: one per-update advance of the clock
(`daytime.add(TICKS_IN_RUN)`). -/
def update_daytime (d : Daytime) : Daytime := d.add TICKS_IN_RUN

/-- src/workers.rs `Worker`. -/
structure Worker where
  home : Coord
  coffee : Coord
  path : List Coord
  waited_for_coffee : Bool
  will_bring_money : ℕ
deriving DecidableEq

/-- src/workers.rs `spawn_worker`: the Worker record built from a
`SpawnWorkerEvent(home, coffee, path)`;
`will_bring_money = money_for_path(path.len())`. -/
def spawn_worker (home coffee : Coord) (path : List Coord) : Worker :=
  ⟨home, coffee, path, false, money_for_path path.length⟩

/-- One worker entity: the `Worker` component together with the optional
`WaitingWorker(n)` marker and the `ReturningWorker` marker. -/
structure WorkerEnt where
  id : ℕ
  worker : Worker
  waiting : Option ℕ
  returning : Bool
deriving DecidableEq

/-- src/field.rs `CoffeeTile` together with its map coordinate. -/
structure CoffeeTile where
  coord : Coord
  waiting_ticks : ℕ
deriving DecidableEq

/-- The per-tick mutable state the worker/shop systems touch. -/
structure SimState where
  workers : List WorkerEnt
  shops : List CoffeeTile
deriving DecidableEq

/-- The query filter of src/field.rs `process_coffees` together with its
`find` predicate: `With<WaitingWorker>, Without<ReturningWorker>` and
`w.coffee == *coord`. -/
def eligibleFor (coord : Coord) (e : WorkerEnt) : Bool :=
  e.waiting.isSome && !e.returning && decide (e.worker.coffee = coord)

/-- Accumulated output of the coffee-service pass: updated shops, ids of
workers marked `ReturningWorker` (deferred insert), and the emitted
`ChangeMoneyEvent` credits. -/
structure CoffeeOut where
  shops : List CoffeeTile
  served : List ℕ
  credits : List ℤ
deriving DecidableEq

/-- src/field.rs `process_coffees`, body of the per-shop loop: a shop with
a non-zero countdown just decrements it; a shop at zero serves the first
eligible waiting worker (if any), resets its countdown to
`WAIT_TICKS_AFTER_SERVING` and credits `REWARD_FOR_COFFEE`.  The worker
list `ws` is the pre-tick query snapshot: `ReturningWorker` inserts are
deferred commands, invisible within the tick. -/
def coffee_shop_step (ws : List WorkerEnt) (acc : CoffeeOut) (shop : CoffeeTile) :
    CoffeeOut :=
  if shop.waiting_ticks ≠ 0 then
    { acc with shops := acc.shops ++ [{ shop with waiting_ticks := shop.waiting_ticks - 1 }] }
  else
    match ws.find? (eligibleFor shop.coord) with
    | none => { acc with shops := acc.shops ++ [shop] }
    | some e =>
      { shops := acc.shops ++ [{ shop with waiting_ticks := WAIT_TICKS_AFTER_SERVING }]
        served := acc.served ++ [e.id]
        credits := acc.credits ++ [REWARD_FOR_COFFEE] }

/-- src/field.rs `process_coffees` for one `TickEvent`. -/
def process_coffees (ws : List WorkerEnt) (shops : List CoffeeTile) : CoffeeOut :=
  shops.foldl (coffee_shop_step ws) ⟨[], [], []⟩

/-- src/workers.rs `wait_worker`, per-entity counter increment
(`w.0 += 1`, a direct component mutation). -/
def wait_increment (e : WorkerEnt) : WorkerEnt :=
  match e.waiting with
  | some w => { e with waiting := some (w + 1) }
  | none => e

/-- src/workers.rs `wait_worker`: after its increment this tick the worker
satisfies `WaitingWorker::is_dead` (`self.0 >= MAX_WAITING_TICKS`), so it
is despawned and the overwait fee is emitted. -/
def diesThisTick (e : WorkerEnt) : Bool :=
  match e.waiting with
  | some w => decide (w + 1 ≥ MAX_WAITING_TICKS)
  | none => false

/-- One `TickEvent` as processed by `wait_worker` and `process_coffees`.
Both systems read the pre-tick component state: component insertion and
despawn go through Bevy `Commands`, which apply only after the stage's
systems have run (and the `before("coffee")` ordering label on
`wait_worker` is attached to no system).  Direct mutations (`w.0 += 1`,
`shop.waiting_ticks`) touch components the other system does not read.
Returned alongside the post-command state is the list of emitted
`ChangeMoneyEvent` deltas. -/
def tick (s : SimState) : SimState × List ℤ :=
  let out := process_coffees s.workers s.shops
  let penalties := (s.workers.filter diesThisTick).map (fun _ => FEE_FOR_OVERWAIT)
  let survivors := (s.workers.filter (fun e => !diesThisTick e)).map
    (fun e =>
      let e' := wait_increment e
      if e.id ∈ out.served then { e' with returning := true } else e')
  (⟨survivors, out.shops⟩, out.credits ++ penalties)

/-- `n` consecutive ticks, with the emitted money deltas concatenated in
order. -/
def tickN : ℕ → SimState → SimState × List ℤ
  | 0, s => (s, [])
  | n + 1, s =>
    let p := tick s
    let q := tickN n p.1
    (q.1, p.2 ++ q.2)

/-- Result of src/workers.rs `start_moving_worker` on one worker that is
neither moving nor waiting. -/
inductive MoveResult where
  | despawned
  | startedWaiting (ticks : ℕ)
  | moving (next : Coord) (rest : List Coord)
deriving DecidableEq

/-- src/workers.rs `start_moving_worker`: on an empty path, a served
worker despawns and an un-served one starts waiting with counter 0;
otherwise `Vec::pop` removes and targets the last path element. -/
def start_moving_worker (w : Worker) : MoveResult :=
  match w.path.getLast? with
  | none => if w.waited_for_coffee then .despawned else .startedWaiting 0
  | some c => .moving c w.path.dropLast

/-- Duration in seconds of the ring-expansion timer after `n` expirations:
`NextRingTimer` defaults to `START_RING_TIMER_SECS`, and every finish in
src/field.rs `generate_next_ring` replaces it with
`Timer::from_seconds(NEXT_RING_TIMER_SECS, false)`. -/
def ringTimerDuration (n : ℕ) : ℚ :=
  if n = 0 then START_RING_TIMER_SECS else NEXT_RING_TIMER_SECS

/-- src/field.rs `upgrade_hex` for one `UpgradeTileEvent`, acting on the
selected coordinate: no-op unless the tile there `is_upgradeable`
(i.e. is `Inactive`); on success the coordinate is re-inserted as
`BreakShop`.  Modelled from the spec: the upgrade-capacity counter and its
check/decrement — src/ui.rs imports a `CoffeeShops` capacity resource from
the field module that is absent from the provided src/field.rs, so per the
spec an upgrade is also a no-op when no capacity remains and otherwise
consumes exactly one capacity unit. -/
def upgrade_hex (m : TileMap) (selected : Option Coord) (capacity : ℕ) :
    TileMap × ℕ :=
  match selected with
  | none => (m, capacity)
  | some c =>
    if ((tiles_get m c).map State.is_upgradeable).getD false then
      if capacity = 0 then (m, capacity)
      else (tiles_insert m c .BreakShop, capacity - 1)
    else (m, capacity)

/-- A single worker waiting (counter 0) for the shop at (1, 0). -/
def c2_worker : WorkerEnt :=
  ⟨0, ⟨(0, 0), (1, 0), [], false, 2⟩, some 0, false⟩

/-- One shop at (1, 0) whose service countdown is at 0, with `c2_worker`
the only worker. -/
def c2_state : SimState := ⟨[c2_worker], [⟨(1, 0), 0⟩]⟩

/-- A worker spawned with a 3-step path (so its spawn-time reward is
`money_for_path 3 = 1`). -/
def c3_worker : Worker := spawn_worker (0, 0) (3, 0) [(3, 0), (2, 0), (1, 0)]

/-- `c3_worker` after arriving: path consumed, now waiting at its shop
(3, 0), whose countdown is at 0. -/
def c3_state : SimState :=
  ⟨[⟨0, { c3_worker with path := [] }, some 0, false⟩], [⟨(3, 0), 0⟩]⟩

/-- A radius-1 map: origin Active, one BreakShop neighbour, three Obstacle
neighbours, two Inactive neighbours (the shape `Map::default` produces). -/
def c5_map : TileMap :=
  [((0, 0), .Active), ((0, 1), .BreakShop), ((1, 0), .Obstacle),
   ((1, -1), .Obstacle), ((0, -1), .Obstacle), ((-1, 0), .Inactive),
   ((-1, 1), .Inactive)]

/-- Two workers waiting on the same shop at (1, 0) (countdown 0): the
first fresh, the second already at 49 waited ticks. -/
def c6_state : SimState :=
  ⟨[⟨0, ⟨(0, 0), (1, 0), [], false, 2⟩, some 0, false⟩,
    ⟨1, ⟨(0, 0), (1, 0), [], false, 2⟩, some 49, false⟩],
   [⟨(1, 0), 0⟩]⟩

/-- A lone waiting worker (counter `k`) with no shops: it can never be
served. -/
def loneWaiting (id : ℕ) (w : Worker) (k : ℕ) : SimState :=
  ⟨[⟨id, w, some k, false⟩], []⟩

/-- C1: processing one money change: a non-negative delta unconditionally
adds that amount to balance; a negative delta whose magnitude exceeds the
balance yields the terminal game-over signal (`none`) with the balance
untouched; a negative delta whose magnitude is at most the balance
subtracts exactly that magnitude.  The balance has type `ℕ` (the source's
`u32`), so it is never negative. -/
theorem change_money_spec (m : ℕ) (d : ℤ) :
    (0 ≤ d → change_money m d = some (m + d.toNat)) ∧
    (d < 0 → m < d.natAbs → change_money m d = none) ∧
    (d < 0 → d.natAbs ≤ m → change_money m d = some (m - d.natAbs)) ∧
    (∀ res : ℕ, change_money m d = some res → 0 ≤ (res : ℤ)) := by
  refine ⟨fun h => ?_, fun h hlt => ?_, fun h hle => ?_, fun res _ => ?_⟩
  · rw [change_money, if_neg (not_lt.mpr h)]
  · rw [change_money, if_pos h, if_neg (by omega)]
  · rw [change_money, if_pos h, if_pos hle]
  · exact Int.natCast_nonneg res

/-- Witness for C1 at concrete inputs. -/
theorem change_money_spec_witness :
    change_money 10 3 = some 13 ∧
    change_money 10 (-3) = some 7 ∧
    change_money 10 (-11) = none ∧
    0 ≤ ((13 : ℕ) : ℤ) := by
  refine ⟨?_, ?_, ?_, ?_⟩
  · simpa using (change_money_spec 10 3).1 (by decide)
  · simpa using (change_money_spec 10 (-3)).2.2.1 (by decide) (by decide)
  · simpa using (change_money_spec 10 (-11)).2.1 (by decide) (by decide)
  · exact (change_money_spec 10 3).2.2.2 13 (by decide)

/-- C9: the spawn-time reward is monotonically non-increasing in path
length and always non-negative. -/
theorem money_for_path_antitone (a b : ℕ) (h : a ≤ b) :
    money_for_path b ≤ money_for_path a ∧ 0 ≤ money_for_path a := by
  refine ⟨?_, Nat.zero_le _⟩
  have hq : (a : ℚ) ≤ (b : ℚ) := by exact_mod_cast h
  have hmul : (b : ℚ) * (-1/2) + 5/2 ≤ (a : ℚ) * (-1/2) + 5/2 := by linarith
  have hceil : ⌈(b : ℚ) * (-1/2) + 5/2⌉ ≤ ⌈(a : ℚ) * (-1/2) + 5/2⌉ :=
    Int.ceil_le_ceil hmul
  exact Int.toNat_le_toNat (max_le_max hceil le_rfl)

/-- Witness for C9 at concrete inputs. -/
theorem money_for_path_antitone_witness :
    money_for_path 5 ≤ money_for_path 2 ∧ 0 ≤ money_for_path 2 :=
  money_for_path_antitone 2 5 (by decide)

/-- C10: from any state with time-of-day counter below the ticks-per-day
constant (the initial state `(1, 0)` included), one per-update advance
keeps the counter below `MAX_TICKS`, keeps displayed hours in 0..23 and
minutes in 0..59, and increments the day by exactly 1 when (and only when)
the counter wraps. -/
theorem daytime_invariant_step (d : Daytime) (h : d.ticks < MAX_TICKS) :
    (update_daytime d).ticks < MAX_TICKS ∧
    (update_daytime d).get_hours ≤ 23 ∧
    (update_daytime d).get_minutes ≤ 59 ∧
    (d.ticks + 1 = MAX_TICKS → update_daytime d = ⟨d.day + 1, 0⟩) ∧
    (d.ticks + 1 < MAX_TICKS → update_daytime d = ⟨d.day, d.ticks + 1⟩) ∧
    (Daytime.mk 1 0).ticks < MAX_TICKS := by
  have hmax : MAX_TICKS = 1440 := by rfl
  rw [hmax] at h ⊢
  simp only [update_daytime, Daytime.add, TICKS_IN_RUN, hmax]
  split_ifs with hge
  · have ht : d.ticks + 1 = 1440 := by omega
    refine ⟨?_, ?_, ?_, fun _ => ?_, fun hc => by omega, by decide⟩
    · show d.ticks + 1 - 1440 < 1440; omega
    · show (d.ticks + 1 - 1440) / 60 ≤ 23; omega
    · show (d.ticks + 1 - 1440) % 60 ≤ 59; omega
    · simp only [Daytime.mk.injEq]; omega
  · refine ⟨?_, ?_, ?_, fun hc => by omega, fun _ => rfl, by decide⟩
    · show d.ticks + 1 < 1440; omega
    · show (d.ticks + 1) / 60 ≤ 23; omega
    · show (d.ticks + 1) % 60 ≤ 59; omega

/-- Witness for C10: a mid-day advance and the wrap at midnight. -/
theorem daytime_invariant_step_witness :
    update_daytime ⟨1, 0⟩ = ⟨1, 1⟩ ∧
    update_daytime ⟨1, 1439⟩ = ⟨2, 0⟩ ∧
    (update_daytime ⟨1, 1439⟩).ticks < MAX_TICKS := by
  refine ⟨?_, ?_, ?_⟩
  · exact (daytime_invariant_step ⟨1, 0⟩ (by decide)).2.2.2.2.1 (by decide)
  · exact (daytime_invariant_step ⟨1, 1439⟩ (by decide)).2.2.2.1 (by decide)
  · exact (daytime_invariant_step ⟨1, 1439⟩ (by decide)).1

/-- C2: evaluation at the failing input.  The only waiting worker is
served in this tick (it is credited and marked `ReturningWorker`), yet its
`ticksWaited` counter is still incremented from 0 to 1 by the same tick's
expiry pass: `WaitingWorker` removal is a deferred command, so the expiry
pass reads the worker regardless of system order (and the
`before("coffee")` label orders expiry first anyway). -/
theorem served_worker_still_incremented :
    (tick c2_state).1.workers =
      [⟨0, ⟨(0, 0), (1, 0), [], false, 2⟩, some 1, true⟩] ∧
    (tick c2_state).2 = [REWARD_FOR_COFFEE] := by
  constructor <;> rfl

/-- C3: evaluation at the failing input.  The worker's spawn-time reward
(`will_bring_money`) is 1, but serving it credits the constant
`REWARD_FOR_COFFEE = 2`: `process_coffees` never reads
`will_bring_money` (no code does). -/
theorem credit_ignores_spawn_reward :
    c3_worker.will_bring_money = 1 ∧
    (tick c3_state).2 = [2] ∧
    REWARD_FOR_COFFEE ≠ (c3_worker.will_bring_money : ℤ) := by
  have hw : c3_worker.will_bring_money = 1 := by
    show money_for_path 3 = 1
    norm_num [money_for_path]
  refine ⟨hw, rfl, ?_⟩
  rw [hw]
  decide

/-- C4 counterexample: the ring timer's durations are 10, 60, 60, ... —
they are not `initialDuration × multiplier^N` for any multiplier > 1
(N = 1 forces multiplier 6, which fails at N = 2), and in particular the
successive durations are not strictly increasing. -/
theorem ring_timer_not_geometric :
    (¬ ∃ mult : ℚ, 1 < mult ∧
        ∀ n : ℕ, ringTimerDuration n = ringTimerDuration 0 * mult ^ n) ∧
    ¬ ringTimerDuration 1 < ringTimerDuration 2 := by
  constructor
  · rintro ⟨m, hm, h⟩
    have h1 : (60 : ℚ) = 10 * m ^ 1 := h 1
    have h2 : (60 : ℚ) = 10 * m ^ 2 := h 2
    rw [pow_one] at h1
    have hm6 : m = 6 := by linarith
    rw [hm6] at h2
    norm_num at h2
  · decide

/-- C4 amended: the timer's first countdown is `START_RING_TIMER_SECS`
(10 s) and after every expiration it resets to the fixed
`NEXT_RING_TIMER_SECS` (60 s); successive durations are non-decreasing
(but constant from the first expiration on, not strictly increasing and
not geometric). -/
theorem ring_timer_constant_after_first :
    ringTimerDuration 0 = START_RING_TIMER_SECS ∧
    (∀ n : ℕ, n ≠ 0 → ringTimerDuration n = NEXT_RING_TIMER_SECS) ∧
    (∀ n : ℕ, ringTimerDuration n ≤ ringTimerDuration (n + 1)) := by
  refine ⟨rfl, fun n hn => by simp [ringTimerDuration, hn], fun n => ?_⟩
  rcases n with _ | n
  · decide
  · simp [ringTimerDuration]

/-- Witness for C4's amended theorem at a concrete input. -/
theorem ring_timer_constant_after_first_witness :
    ringTimerDuration 1 = NEXT_RING_TIMER_SECS :=
  ring_timer_constant_after_first.2.1 1 (by decide)

/-- C6 counterexample: in `c6_state` (two workers Waiting on the same
shop, countdown 0) the first worker is served, but the second does not
remain Waiting at the end of the tick: its counter reaches
`MAX_WAITING_TICKS` in the same tick's expiry pass, so it despawns (with
the overwait fee). -/
theorem second_waiter_can_expire_same_tick :
    (tick c6_state).1.workers =
      [⟨0, ⟨(0, 0), (1, 0), [], false, 2⟩, some 1, true⟩] ∧
    (tick c6_state).2 = [REWARD_FOR_COFFEE, FEE_FOR_OVERWAIT] := by
  constructor <;> rfl

/-- C6 amended: for a shop at countdown 0 with two Waiting workers
targeting it, exactly one (the first in iteration order) is served that
tick — the countdown resets to `WAIT_TICKS_AFTER_SERVING` and exactly one
reward is credited — and the other remains Waiting at the end of the tick
provided its incremented wait counter stays below `MAX_WAITING_TICKS`
(otherwise it expires and despawns that same tick). -/
theorem one_served_per_shop_tick (e1 e2 : WorkerEnt) (shop : CoffeeTile)
    (w1 w2 : ℕ)
    (h1w : e1.waiting = some w1) (h1r : e1.returning = false)
    (h1c : e1.worker.coffee = shop.coord)
    (h2w : e2.waiting = some w2) (h2r : e2.returning = false)
    (_h2c : e2.worker.coffee = shop.coord)
    (hid : e2.id ≠ e1.id) (hshop : shop.waiting_ticks = 0)
    (hs1 : w1 + 1 < MAX_WAITING_TICKS) (hs2 : w2 + 1 < MAX_WAITING_TICKS) :
    tick ⟨[e1, e2], [shop]⟩ =
      (⟨[{ wait_increment e1 with returning := true }, wait_increment e2],
        [{ shop with waiting_ticks := WAIT_TICKS_AFTER_SERVING }]⟩,
       [REWARD_FOR_COFFEE]) ∧
    (wait_increment e2).waiting = some (w2 + 1) ∧
    (wait_increment e2).returning = false := by
  have he1 : eligibleFor shop.coord e1 = true := by
    simp [eligibleFor, h1w, h1r, h1c]
  have hd1 : diesThisTick e1 = false := by
    simp only [diesThisTick, h1w, decide_eq_false_iff_not]
    omega
  have hd2 : diesThisTick e2 = false := by
    simp only [diesThisTick, h2w, decide_eq_false_iff_not]
    omega
  refine ⟨?_, ?_, ?_⟩
  · simp only [tick, process_coffees, List.foldl, coffee_shop_step, hshop,
      ne_eq, not_true_eq_false, if_false, List.find?_cons_of_pos _ he1,
      List.filter, hd1, hd2, Bool.not_false, List.map, List.mem_cons,
      List.not_mem_nil, or_false, List.mem_singleton]
    simp [hid]
  · rw [wait_increment, h2w]
  · rw [wait_increment, h2w]
    exact h2r

/-- Witness for C6's amended theorem at a concrete input. -/
theorem one_served_per_shop_tick_witness :
    tick ⟨[⟨0, ⟨(0, 0), (1, 0), [], false, 2⟩, some 3, false⟩,
           ⟨1, ⟨(0, 0), (1, 0), [], false, 2⟩, some 7, false⟩],
          [⟨(1, 0), 0⟩]⟩ =
      (⟨[⟨0, ⟨(0, 0), (1, 0), [], false, 2⟩, some 4, true⟩,
         ⟨1, ⟨(0, 0), (1, 0), [], false, 2⟩, some 8, false⟩],
        [⟨(1, 0), 6⟩]⟩,
       [2]) := by
  exact (one_served_per_shop_tick
    ⟨0, ⟨(0, 0), (1, 0), [], false, 2⟩, some 3, false⟩
    ⟨1, ⟨(0, 0), (1, 0), [], false, 2⟩, some 7, false⟩
    ⟨(1, 0), 0⟩ 3 7 rfl rfl rfl rfl rfl rfl (by decide) rfl
    (by decide) (by decide)).1

/-- Unfolding lemma for `tickN`. -/
theorem tickN_succ (n : ℕ) (s : SimState) :
    tickN (n + 1) s =
      ((tickN n (tick s).1).1, (tick s).2 ++ (tickN n (tick s).1).2) := rfl

/-- One tick on a lone waiting worker that survives: only the counter
moves. -/
theorem tick_lone_alive (id : ℕ) (w : Worker) (k : ℕ)
    (hk : k + 1 < MAX_WAITING_TICKS) :
    tick (loneWaiting id w k) = (loneWaiting id w (k + 1), []) := by
  have hd : diesThisTick ⟨id, w, some k, false⟩ = false := by
    simp only [diesThisTick, decide_eq_false_iff_not]
    omega
  simp [tick, process_coffees, loneWaiting, hd, wait_increment]

/-- One tick on a lone waiting worker at the ceiling: it despawns and the
overwait fee is emitted. -/
theorem tick_lone_dead (id : ℕ) (w : Worker) :
    tick (loneWaiting id w (MAX_WAITING_TICKS - 1)) = (⟨[], []⟩, [FEE_FOR_OVERWAIT]) := by
  simp [tick, process_coffees, loneWaiting, diesThisTick, MAX_WAITING_TICKS]

/-- A lone waiting worker that stays strictly below the ceiling just
accumulates waited ticks. -/
theorem tickN_lone_waits (j : ℕ) : ∀ k : ℕ, ∀ id : ℕ, ∀ w : Worker,
    k + j + 1 ≤ MAX_WAITING_TICKS →
    tickN j (loneWaiting id w k) = (loneWaiting id w (k + j), []) := by
  induction j with
  | zero => intro k id w _; simp [tickN]
  | succ n ih =>
    intro k id w h
    have hstep := tick_lone_alive id w k (by omega)
    have hrest := ih (k + 1) id w (by omega)
    rw [tickN_succ, hstep]
    simp only [hrest, List.nil_append]
    have : k + 1 + n = k + (n + 1) := by omega
    rw [this]

/-- A lone waiting worker whose counter will hit the ceiling on the last
of `j + 1` ticks: it despawns and exactly one overwait fee is emitted. -/
theorem tickN_lone_dies (j : ℕ) : ∀ k : ℕ, ∀ id : ℕ, ∀ w : Worker,
    k + j + 1 = MAX_WAITING_TICKS →
    tickN (j + 1) (loneWaiting id w k) = (⟨[], []⟩, [FEE_FOR_OVERWAIT]) := by
  induction j with
  | zero =>
    intro k id w h
    have hk : k = MAX_WAITING_TICKS - 1 := by omega
    subst hk
    simp [tickN, tick_lone_dead]
  | succ n ih =>
    intro k id w h
    have hstep := tick_lone_alive id w k (by omega)
    have hrest := ih (k + 1) id w (by omega)
    rw [tickN_succ, hstep]
    simp only [hrest, List.nil_append]

/-- C7: a worker whose path is empty and `waited_for_coffee = false`
starts waiting with counter 0 (while one with `waited_for_coffee = true`
despawns); a lone waiting worker that is never served still exists after
`MAX_WAITING_TICKS - 1` ticks (counter 49) but after `MAX_WAITING_TICKS`
ticks has despawned with exactly one `FEE_FOR_OVERWAIT` money event
emitted, and applying that event to a balance `b ≥ 5` yields `b - 5`. -/
theorem worker_wait_lifecycle (w : Worker) (id b : ℕ)
    (hpath : w.path = []) (hserved : w.waited_for_coffee = false)
    (hb : 5 ≤ b) :
    start_moving_worker w = .startedWaiting 0 ∧
    start_moving_worker { w with waited_for_coffee := true } = .despawned ∧
    tickN (MAX_WAITING_TICKS - 1) (loneWaiting id w 0) =
      (loneWaiting id w (MAX_WAITING_TICKS - 1), []) ∧
    tickN MAX_WAITING_TICKS (loneWaiting id w 0) =
      (⟨[], []⟩, [FEE_FOR_OVERWAIT]) ∧
    change_money b FEE_FOR_OVERWAIT = some (b - 5) := by
  refine ⟨?_, ?_, ?_, ?_, ?_⟩
  · simp [start_moving_worker, hpath, hserved]
  · simp [start_moving_worker, hpath]
  · exact tickN_lone_waits 49 0 id w (by decide)
  · exact tickN_lone_dies 49 0 id w (by decide)
  · have h5 : ((-5 : ℤ)).natAbs ≤ b := by simpa using hb
    rw [show FEE_FOR_OVERWAIT = -5 from rfl, change_money,
      if_pos (by decide : (-5 : ℤ) < 0), if_pos h5]
    norm_num

/-- Witness for C7 at a concrete worker and balance. -/
theorem worker_wait_lifecycle_witness :
    start_moving_worker ⟨(0, 0), (1, 0), [], false, 2⟩ = .startedWaiting 0 ∧
    start_moving_worker ⟨(0, 0), (1, 0), [], true, 2⟩ = .despawned ∧
    tickN 50 (loneWaiting 0 ⟨(0, 0), (1, 0), [], false, 2⟩ 0) =
      (⟨[], []⟩, [FEE_FOR_OVERWAIT]) ∧
    change_money 6 FEE_FOR_OVERWAIT = some 1 := by
  have h := worker_wait_lifecycle ⟨(0, 0), (1, 0), [], false, 2⟩ 0 6 rfl rfl
    (by decide)
  exact ⟨h.1, h.2.1, h.2.2.2.1, h.2.2.2.2⟩

/-- `countP` over a `filterMap`: each surviving element witnesses that
its source satisfied `isSome`, so the count is bounded by counting the
sources a weaker predicate `q` accepts. -/
theorem countP_filterMap_le {α β : Type} (l : List α) (f : α → Option β)
    (p : β → Bool) (q : α → Bool)
    (h : ∀ a ∈ l, (f a).isSome = true → q a = true) :
    (l.filterMap f).countP p ≤ l.countP q := by
  induction l with
  | nil => simp
  | cons a t ih =>
    have ht : ∀ x ∈ t, (f x).isSome = true → q x = true :=
      fun x hx => h x (List.mem_cons_of_mem a hx)
    cases hfa : f a with
    | none =>
      rw [List.filterMap_cons_none hfa, List.countP_cons]
      have := ih ht
      split <;> omega
    | some b =>
      have hqa : q a = true := h a (List.mem_cons_self a t) (by rw [hfa]; rfl)
      rw [List.filterMap_cons_some hfa, List.countP_cons, List.countP_cons,
        hqa]
      have := ih ht
      split <;> simp <;> omega

set_option maxHeartbeats 2000000 in
/-- A hex at distance `r + 1` from the origin has at most two neighbours
at distance ≤ `r` (one at a ring corner, two along a ring edge). -/
theorem hex_close_neighbors_le_two (c : Coord) (r : ℕ)
    (h : hexDist c = r + 1) :
    (hexNeighbors c).countP (fun n => decide (hexDist n ≤ r)) ≤ 2 := by
  obtain ⟨x, y⟩ := c
  simp only [hexNeighbors, hexDist, List.countP_cons, List.countP_nil,
    decide_eq_true_eq] at h ⊢
  split_ifs <;> omega

/-- C5: during generation of ring `r + 1` from a snapshot containing only
tiles of radius ≤ `r` (which is every reachable pre-expansion map: tiles
are committed only after the whole ring's choices are made), each new
coordinate's already-materialized Obstacle-neighbour count is at most 2,
so indexing the three-bucket `NEIGHBOURS_WEIGHTS` table with it never
faults, and the selected table is exactly the `min(count, 2)` bucket. -/
theorem ring_weight_table_safe (m : TileMap) (r : ℕ)
    (hm : ∀ p ∈ m, hexDist p.1 ≤ r) (c : Coord) (hc : hexDist c = r + 1) :
    obstacleCount m c ≤ 2 ∧
    NEIGHBOURS_WEIGHTS.get? (obstacleCount m c) =
      NEIGHBOURS_WEIGHTS.get? (min (obstacleCount m c) 2) ∧
    (NEIGHBOURS_WEIGHTS.get? (obstacleCount m c)).isSome = true := by
  have hb : obstacleCount m c ≤ 2 := by
    have h1 : obstacleCount m c
        ≤ (hexNeighbors c).countP (fun n => decide (hexDist n ≤ r)) := by
      rw [obstacleCount, ← List.countP_eq_length_filter]
      apply countP_filterMap_le
      intro n _ hsome
      rw [decide_eq_true_eq]
      rcases hfind : m.find? (fun p => decide (p.1 = n)) with _ | pr
      · rw [tiles_get, hfind] at hsome
        simp at hsome
      · have hmem := List.mem_of_find?_eq_some hfind
        have hp := List.find?_some hfind
        have hpn : pr.1 = n := of_decide_eq_true hp
        rw [← hpn]
        exact hm pr hmem
    exact le_trans h1 (hex_close_neighbors_le_two c r hc)
  refine ⟨hb, ?_, ?_⟩
  · have hmin : min (obstacleCount m c) 2 = obstacleCount m c := by omega
    rw [hmin]
  · set k := obstacleCount m c with hk
    interval_cases k <;> decide

/-- Witness for C5: a radius-1 map with three obstacles and the ring-2
coordinate (2, 0). -/
theorem ring_weight_table_safe_witness :
    obstacleCount c5_map (2, 0) ≤ 2 ∧
    NEIGHBOURS_WEIGHTS.get? (obstacleCount c5_map (2, 0)) =
      NEIGHBOURS_WEIGHTS.get? (min (obstacleCount c5_map (2, 0)) 2) ∧
    (NEIGHBOURS_WEIGHTS.get? (obstacleCount c5_map (2, 0))).isSome = true :=
  ring_weight_table_safe c5_map 1 (by decide) (2, 0) (by decide)

/-- C8: an upgrade request is a no-op unless the selected coordinate
currently holds an Inactive tile and upgrade capacity remains; when both
hold it consumes exactly one capacity unit, replaces that tile with
BreakShop, and leaves every other coordinate's tile unchanged. -/
theorem upgrade_hex_spec (m : TileMap) (c : Coord) (cap : ℕ) :
    (tiles_get m c ≠ some .Inactive → upgrade_hex m (some c) cap = (m, cap)) ∧
    (cap = 0 → upgrade_hex m (some c) cap = (m, cap)) ∧
    (tiles_get m c = some .Inactive → 0 < cap →
      upgrade_hex m (some c) cap = (tiles_insert m c .BreakShop, cap - 1) ∧
      tiles_get (tiles_insert m c .BreakShop) c = some .BreakShop ∧
      (∀ c' : Coord, c' ≠ c →
        tiles_get (tiles_insert m c .BreakShop) c' = tiles_get m c')) := by
  refine ⟨fun hne => ?_, fun hcap => ?_, fun hg hcap => ?_⟩
  · rcases hs : tiles_get m c with _ | s
    · simp [upgrade_hex, hs]
    · cases s <;> simp_all [upgrade_hex, State.is_upgradeable]
  · subst hcap
    simp only [upgrade_hex]
    split <;> simp
  · have hcap0 : cap ≠ 0 := by omega
    refine ⟨?_, ?_, fun c' hc' => ?_⟩
    · simp [upgrade_hex, hg, State.is_upgradeable, hcap0]
    · simp [tiles_get, tiles_insert, List.find?]
    · simp only [tiles_get, tiles_insert]
      rw [List.find?_cons_of_neg _
        (by simp only [decide_eq_true_eq]; exact fun hcc => hc' hcc.symm)]

/-- Witness for C8: a successful upgrade, its effect on other
coordinates, and the capacity-exhausted no-op, at concrete inputs. -/
theorem upgrade_hex_spec_witness :
    upgrade_hex [((0, 0), State.Inactive)] (some (0, 0)) 1 =
      (tiles_insert [((0, 0), State.Inactive)] (0, 0) .BreakShop, 0) ∧
    tiles_get (tiles_insert [((0, 0), State.Inactive)] (0, 0) .BreakShop) (0, 0) =
      some .BreakShop ∧
    tiles_get (tiles_insert [((0, 0), State.Inactive)] (0, 0) .BreakShop) (5, 5) =
      tiles_get [((0, 0), State.Inactive)] (5, 5) ∧
    upgrade_hex [((0, 0), State.Inactive)] (some (0, 0)) 0 =
      ([((0, 0), State.Inactive)], 0) := by
  have h := (upgrade_hex_spec [((0, 0), State.Inactive)] (0, 0) 1).2.2
    (by decide) (by decide)
  exact ⟨h.1, h.2.1, h.2.2 (5, 5) (by decide),
    (upgrade_hex_spec [((0, 0), State.Inactive)] (0, 0) 0).2.1 rfl⟩

end Minijam
